import Mathlib

/-!
Verification of the schema-reflection and type-mapping core of the
`sqlalchemy_d1` dialect (file `sqlalchemy_d1/dialect.py`).

The reflection methods of `D1Dialect` are embedded shallowly: each method is
modelled as a pure function from the raw catalog rows its single `execute`
call returns (the execution contract) to the descriptor values it builds.
Fallible paths (the `try`/`except` wrappers that re-raise `RuntimeError`)
are modelled with `Except`, with the error message string built exactly as
the source f-strings build it.
-/

namespace D1

/-- Substring check on lists of characters: `isPrefixL p s` holds when `p`
is an initial segment of `s`. -/
def isPrefixL : List Char → List Char → Bool
  | [], _ => true
  | _ :: _, [] => false
  | a :: as, b :: bs => a == b && isPrefixL as bs

/-- The test `containsL pat s` holds when `pat` occurs as a contiguous substring of `s`
(the semantics of the Python `pat in s` test on strings). -/
def containsL (pat : List Char) : List Char → Bool
  | [] => isPrefixL pat []
  | c :: rest => isPrefixL pat (c :: rest) || containsL pat rest

/-- The test `containsSub s pat` is Python's `pat in s` on strings. -/
def containsSub (s pat : String) : Bool :=
  containsL pat.toList s.toList

/-- Python `str.upper()` (ASCII behaviour, which is all the dialect needs). -/
def upperStr (s : String) : String :=
  String.mk (s.toList.map Char.toUpper)

/-- The portable semantic types the resolver can produce; these stand for
the `sqlalchemy.types` instances returned by `_resolve_type`. -/
inductive SqlType where
  | nullType
  | integer
  | string
  | largeBinary
  | float
  | numeric
  | boolean
  deriving DecidableEq, Repr

/-- Embedding of `D1Dialect._resolve_type` (dialect.py lines 252-272): maps a declared
type string (or `None`) to a semantic type by an ordered cascade of
substring tests against the uppercased input. -/
def resolve_type : Option String → SqlType
  | none => SqlType.nullType
  | some d1_type =>
    let t := upperStr d1_type
    if containsSub t "INT" then SqlType.integer
    else if containsSub t "CHAR" || containsSub t "CLOB" || containsSub t "TEXT" then
      SqlType.string
    else if containsSub t "BLOB" then SqlType.largeBinary
    else if containsSub t "REAL" || containsSub t "FLOA" || containsSub t "DOUB" then
      SqlType.float
    else if containsSub t "NUMERIC" || containsSub t "DECIMAL" then SqlType.numeric
    else if containsSub t "BOOL" then SqlType.boolean
    else SqlType.string

/-- The resolution cascade exactly as §4.3 of the specification words it
(ordered, first match wins, case-insensitive substring test against the
uppercased input), to be compared with `resolve_type` above. -/
def resolveTypeSpec : Option String → SqlType
  | none => SqlType.nullType
  | some s =>
    let t := upperStr s
    if containsSub t "INT" then SqlType.integer
    else if containsSub t "CHAR" then SqlType.string
    else if containsSub t "CLOB" then SqlType.string
    else if containsSub t "TEXT" then SqlType.string
    else if containsSub t "BLOB" then SqlType.largeBinary
    else if containsSub t "REAL" then SqlType.float
    else if containsSub t "FLOA" then SqlType.float
    else if containsSub t "DOUB" then SqlType.float
    else if containsSub t "NUMERIC" then SqlType.numeric
    else if containsSub t "DECIMAL" then SqlType.numeric
    else if containsSub t "BOOL" then SqlType.boolean
    else SqlType.string

/-- One raw row of `PRAGMA table_info(t)`: fields `name`, `type`,
`notnull`, `dflt_value`, `pk` as the catalog reports them. -/
structure TableInfoRow where
  name : String
  type : Option String
  notnull : Bool
  dflt_value : Option String
  pk : Nat
  deriving DecidableEq, Repr

/-- The column dict built by `D1Dialect.get_columns` for one catalog row. -/
structure ColumnDescriptor where
  name : String
  type : SqlType
  nullable : Bool
  default : Option String
  autoincrement : Bool
  deriving DecidableEq, Repr

/-- Loop body of `D1Dialect.get_columns` (dialect.py lines 91-100). -/
def mkColumn (row : TableInfoRow) : ColumnDescriptor :=
  { name := row.name
    type := resolve_type row.type
    nullable := !row.notnull
    default := row.dflt_value
    autoincrement := row.pk == 1 }

/-- Embedding of `D1Dialect.get_columns` (dialect.py lines 82-105), as a function of the
raw `PRAGMA table_info` rows its `execute` call returns. -/
def get_columns (rows : List TableInfoRow) : List ColumnDescriptor :=
  rows.map mkColumn

/-- Embedding of `D1Dialect.get_primary_keys` (dialect.py lines 107-117): names of the
rows whose `pk` equals 1. -/
def get_primary_keys (rows : List TableInfoRow) : List String :=
  (rows.filter (fun row => row.pk == 1)).map TableInfoRow.name

/-- Result shape of `D1Dialect.get_pk_constraint`. -/
structure PKConstraint where
  constrained_columns : List String
  name : Option String
  deriving DecidableEq, Repr

/-- Embedding of `D1Dialect.get_pk_constraint` (dialect.py lines 119-137): names of the
rows whose `pk` is nonzero, in catalog row order, with no constraint name. -/
def get_pk_constraint (rows : List TableInfoRow) : PKConstraint :=
  { constrained_columns := (rows.filter (fun row => row.pk != 0)).map TableInfoRow.name
    name := none }

/-- One raw row of `PRAGMA foreign_key_list(t)`; Python's `row["from"]` and
`row["to"]` become `fromCol` and `toCol`. -/
structure FKRow where
  id : Nat
  fromCol : String
  toCol : String
  table : String
  on_update : String
  on_delete : String
  deriving DecidableEq, Repr

/-- The foreign-key dict built by `D1Dialect.get_foreign_keys` for one row
(the nested `options` dict is flattened into the two action fields). -/
structure ForeignKeyDescriptor where
  name : Nat
  constrained_columns : List String
  referred_schema : Option String
  referred_table : String
  referred_columns : List String
  onupdate : String
  ondelete : String
  deriving DecidableEq, Repr

/-- Embedding of `D1Dialect.get_foreign_keys` (dialect.py lines 139-169). -/
def get_foreign_keys (rows : List FKRow) : List ForeignKeyDescriptor :=
  rows.map fun row =>
    { name := row.id
      constrained_columns := [row.fromCol]
      referred_schema := none
      referred_table := row.table
      referred_columns := [row.toCol]
      onupdate := row.on_update
      ondelete := row.on_delete }

/-- One raw row of the index catalog scan: `name` and `sql` columns of
`sqlite_schema` (the `sql` column can be NULL). -/
structure IndexRow where
  name : String
  sql : Option String
  deriving DecidableEq, Repr

/-- The index dict built by `D1Dialect.get_indexes` for one catalog row. -/
structure IndexDescriptor where
  name : String
  column_names : List String
  unique : Bool
  primary_key : Bool
  deriving DecidableEq, Repr

/-- Lazy group body of the regex `\((.*?)\)`: the characters following a
`(` up to the first `)`, failing at a newline (`.` does not match
newlines) or at the end of the input. -/
def scanGroup : List Char → Option (List Char)
  | [] => none
  | c :: rest =>
    if c == ')' then some []
    else if c == '\n' then none
    else (scanGroup rest).map (fun g => c :: g)

/-- Leftmost match of `re.search` with pattern `\((.*?)\)`: the group of
the first `(` that closes before a newline; later `(`s are tried when an
earlier one cannot close. -/
def firstParenGroup : List Char → Option (List Char)
  | [] => none
  | c :: rest =>
    if c == '(' then
      match scanGroup rest with
      | some g => some g
      | none => firstParenGroup rest
    else firstParenGroup rest

/-- Drop characters satisfying `p` from both ends of `cs` (the semantics
of Python `str.strip`). -/
def trimEnds (p : Char → Bool) (cs : List Char) : List Char :=
  ((cs.dropWhile p).reverse.dropWhile p).reverse

/-- Python `"...".split(",")` on the group's characters: comma-separated
pieces, the empty string splitting to one empty piece. -/
def splitComma : List Char → List (List Char)
  | [] => [[]]
  | c :: rest =>
    if c == ',' then [] :: splitComma rest
    else
      match splitComma rest with
      | [] => [[c]]
      | piece :: pieces => (c :: piece) :: pieces

/-- The source's per-piece cleanup, strip whitespace then strip the
double-quote character: trim whitespace,
then trim double-quote characters. -/
def stripPiece (cs : List Char) : String :=
  String.mk (trimEnds (fun c => c == '"') (trimEnds Char.isWhitespace cs))

/-- Embedding of `D1Dialect._parse_index_columns` (dialect.py lines 221-231): the first
parenthesized group of the SQL text, split on commas, each piece stripped
of whitespace and surrounding double quotes; `[]` when no group matches. -/
def parse_index_columns (sql : String) : List String :=
  match firstParenGroup sql.toList with
  | some g => (splitComma g).map stripPiece
  | none => []

/-- Loop body of `D1Dialect.get_indexes` (dialect.py lines 184-193) for one
index catalog row; `row["sql"] or ""` becomes `getD ""`. -/
def mkIndex (row : IndexRow) : IndexDescriptor :=
  let sql := row.sql.getD ""
  { name := row.name
    column_names := parse_index_columns sql
    unique := containsSub (upperStr sql) "UNIQUE"
    primary_key := false }

/-- Embedding of `D1Dialect.get_indexes` (dialect.py lines 171-198), as a function of
the raw index catalog rows. -/
def get_indexes (rows : List IndexRow) : List IndexDescriptor :=
  rows.map mkIndex

/-- The dict built by `D1Dialect.get_unique_constraints` per unique index. -/
structure UniqueConstraintDescriptor where
  name : String
  column_names : List String
  deriving DecidableEq, Repr

/-- The accumulation loop of `D1Dialect.get_unique_constraints`
(dialect.py lines 210-217): append a projection of every descriptor whose
`unique` flag is set. -/
def uniqueLoop : List IndexDescriptor → List UniqueConstraintDescriptor
  | [] => []
  | idx :: rest =>
    if idx.unique then
      { name := idx.name, column_names := idx.column_names } :: uniqueLoop rest
    else uniqueLoop rest

/-- Embedding of `D1Dialect.get_unique_constraints` (dialect.py lines 200-218): runs the
loop over the descriptors `get_indexes` built from the same catalog rows. -/
def get_unique_constraints (rows : List IndexRow) : List UniqueConstraintDescriptor :=
  uniqueLoop (get_indexes rows)

/-- Embedding of `D1Dialect.get_table_names` (dialect.py lines 50-65): the catalog's
table names with every name starting in `_cf` discarded. -/
def get_table_names (all_tables : List String) : List String :=
  all_tables.filter (fun t => !t.startsWith "_cf")

/-- Embedding of `D1Dialect.get_view_names` (dialect.py lines 67-80): same filter over
the catalog's view names. -/
def get_view_names (all_views : List String) : List String :=
  all_views.filter (fun v => !v.startsWith "_cf")

/-- A statement handed to the execution contract: its SQL text and its
bound parameters (name/value pairs). -/
structure Statement where
  sql : String
  params : List (String × String)
  deriving DecidableEq, Repr

/-- The existence probe `D1Dialect.has_table` issues (dialect.py lines
239-245): constant SQL text with the table name bound as a parameter,
never interpolated into the text. -/
def has_table_stmt (table_name : String) : Statement :=
  { sql := "SELECT 1 FROM sqlite_master WHERE type=\x27table\x27 AND name=:table_name;"
    params := [("table_name", table_name)] }

/-- Semantics of `result.scalar()`: the first column of the first row, or `None` when
the result set is empty; the probe selects the literal 1, so each row is
modelled by that integer. -/
def scalar (rows : List Int) : Option Int :=
  rows.head?

/-- Result shaping of `D1Dialect.has_table` (dialect.py line 246):
`result.scalar() is not None`. -/
def has_table (rows : List Int) : Bool :=
  (scalar rows).isSome

/-!
Fallible variants: each reflection method wraps its body in
`try ... except Exception as e: raise RuntimeError(f"...")`.  The
underlying `execute` call is modelled as an `Except String` result (the
error string standing for `str(e)` of the original cause), and each
wrapper either shapes the successful rows or re-raises the f-string
message of the source.
-/

/-- Wrapper `get_columns` with its except clause (dialect.py lines 102-105). -/
def get_columns_r (table_name : String) (res : Except String (List TableInfoRow)) :
    Except String (List ColumnDescriptor) :=
  match res with
  | Except.ok rows => Except.ok (get_columns rows)
  | Except.error e =>
    Except.error ("Failed to fetch columns for table \x27" ++ table_name ++ "\x27: " ++ e)

/-- Wrapper `get_primary_keys` with its except clause (dialect.py lines 114-117). -/
def get_primary_keys_r (table_name : String) (res : Except String (List TableInfoRow)) :
    Except String (List String) :=
  match res with
  | Except.ok rows => Except.ok (get_primary_keys rows)
  | Except.error e =>
    Except.error ("Failed to fetch primary keys for table \x27" ++ table_name ++ "\x27: " ++ e)

/-- Wrapper `get_pk_constraint` with its except clause (dialect.py lines 134-137). -/
def get_pk_constraint_r (table_name : String) (res : Except String (List TableInfoRow)) :
    Except String PKConstraint :=
  match res with
  | Except.ok rows => Except.ok (get_pk_constraint rows)
  | Except.error e =>
    Except.error ("Failed to fetch primary key for \x27" ++ table_name ++ "\x27: " ++ e)

/-- Wrapper `get_foreign_keys` with its except clause (dialect.py lines 166-169). -/
def get_foreign_keys_r (table_name : String) (res : Except String (List FKRow)) :
    Except String (List ForeignKeyDescriptor) :=
  match res with
  | Except.ok rows => Except.ok (get_foreign_keys rows)
  | Except.error e =>
    Except.error ("Failed to fetch foreign keys for \x27" ++ table_name ++ "\x27: " ++ e)

/-- Wrapper `get_indexes` with its except clause (dialect.py lines 195-198). -/
def get_indexes_r (table_name : String) (res : Except String (List IndexRow)) :
    Except String (List IndexDescriptor) :=
  match res with
  | Except.ok rows => Except.ok (get_indexes rows)
  | Except.error e =>
    Except.error ("Failed to fetch indexes for \x27" ++ table_name ++ "\x27: " ++ e)

/-- Wrapper `has_table` with its except clause (dialect.py lines 247-250). -/
def has_table_r (table_name : String) (res : Except String (List Int)) :
    Except String Bool :=
  match res with
  | Except.ok rows => Except.ok (has_table rows)
  | Except.error e =>
    Except.error ("Failed to check existence of table \x27" ++ table_name ++ "\x27: " ++ e)

/-! Supporting lemmas about the substring test. -/

theorem isPrefixL_self_append (p rest : List Char) : isPrefixL p (p ++ rest) = true := by
  induction p with
  | nil => rfl
  | cons a as ih => simp [isPrefixL, ih]

theorem containsL_of_isPrefixL (p s : List Char) (h : isPrefixL p s = true) :
    containsL p s = true := by
  cases s with
  | nil => exact h
  | cons c rest => simp [containsL, h]

theorem containsL_append_left (a p s : List Char) (h : containsL p s = true) :
    containsL p (a ++ s) = true := by
  induction a with
  | nil => exact h
  | cons c cs ih => simp [containsL, ih]

/-- Function `String.toList` distributes over concatenation. -/
theorem toList_append (a b : String) : (a ++ b).toList = a.toList ++ b.toList := rfl

/-- The needle occurs in any string of which it is a middle segment. -/
theorem containsSub_mid (a m b : String) : containsSub ((a ++ m) ++ b) m = true := by
  show containsL m.toList ((a ++ m) ++ b).toList = true
  have hsplit : ((a ++ m) ++ b).toList = a.toList ++ (m.toList ++ b.toList) := by
    simp [toList_append]
  rw [hsplit]
  exact containsL_append_left _ _ _
    (containsL_of_isPrefixL _ _ (isPrefixL_self_append m.toList b.toList))

/-- The needle occurs in any string of which it is the final segment. -/
theorem containsSub_suffix (a m : String) : containsSub (a ++ m) m = true := by
  show containsL m.toList (a ++ m).toList = true
  have hsplit : (a ++ m).toList = a.toList ++ (m.toList ++ []) := by
    simp [toList_append]
  rw [hsplit]
  exact containsL_append_left _ _ _
    (containsL_of_isPrefixL _ _ (isPrefixL_self_append m.toList []))

end D1

namespace D1

/-- Claim C1: the type resolver is pure, total and deterministic; on every
input it runs the spec's ordered cascade over the uppercased string (null
input to the no-declared-type marker, then INT, CHAR/CLOB/TEXT, BLOB,
REAL/FLOA/DOUB, NUMERIC/DECIMAL, BOOL, text fallback, first match wins),
and in particular `resolve_type` sends `none` to the no-type marker,
`INTEGER` to integer, `VARCHAR(255)` to text, `DOUBLE PRECISION` to float
and `UNKNOWNTYPE` to the text fallback. -/
theorem resolve_type_spec :
    (∀ o : Option String, resolve_type o = resolveTypeSpec o)
    ∧ resolve_type none = SqlType.nullType
    ∧ resolve_type (some "INTEGER") = SqlType.integer
    ∧ resolve_type (some "VARCHAR(255)") = SqlType.string
    ∧ resolve_type (some "DOUBLE PRECISION") = SqlType.float
    ∧ resolve_type (some "UNKNOWNTYPE") = SqlType.string := by
  refine ⟨fun o => ?_, by decide, by decide, by decide, by decide, by decide⟩
  cases o with
  | none => rfl
  | some s =>
    simp only [resolve_type, resolveTypeSpec]
    cases containsSub (upperStr s) "INT" <;>
      cases containsSub (upperStr s) "CHAR" <;>
        cases containsSub (upperStr s) "CLOB" <;>
          cases containsSub (upperStr s) "TEXT" <;>
            cases containsSub (upperStr s) "BLOB" <;>
              cases containsSub (upperStr s) "REAL" <;>
                cases containsSub (upperStr s) "FLOA" <;>
                  cases containsSub (upperStr s) "DOUB" <;>
                    cases containsSub (upperStr s) "NUMERIC" <;>
                      cases containsSub (upperStr s) "DECIMAL" <;>
                        cases containsSub (upperStr s) "BOOL" <;> rfl

/-- Claim C2: the descriptor `get_columns` builds for a catalog row has its
autoincrement-candidate flag set exactly when that row's primary-key
ordinal equals 1. -/
theorem autoincrement_candidate_iff (rows : List TableInfoRow) (i : Nat)
    (col : ColumnDescriptor) (h : (get_columns rows)[i]? = some col) :
    ∃ row, rows[i]? = some row ∧ (col.autoincrement = true ↔ row.pk = 1) := by
  rw [get_columns, List.getElem?_map] at h
  cases hrow : rows[i]? with
  | none => rw [hrow] at h; exact absurd h (by simp)
  | some row =>
    rw [hrow] at h
    have hcol : mkColumn row = col := by simpa using h
    refine ⟨row, rfl, ?_⟩
    rw [← hcol]
    simp [mkColumn]

/-- Claim C3: `get_pk_constraint` returns, in catalog row order, exactly
the names of the rows whose primary-key ordinal is nonzero, with no
constraint name; on a composite key with ordinals 1 and 2 both columns
come back in ordinal order. -/
theorem pk_constraint_spec :
    (∀ rows : List TableInfoRow,
        (get_pk_constraint rows).name = none
        ∧ (get_pk_constraint rows).constrained_columns
            = (rows.filter (fun row => decide (row.pk ≠ 0))).map TableInfoRow.name)
    ∧ (get_pk_constraint
          [⟨"a", some "INTEGER", true, none, 1⟩, ⟨"b", some "INTEGER", true, none, 2⟩,
           ⟨"c", some "TEXT", false, none, 0⟩]).constrained_columns = ["a", "b"] := by
  refine ⟨fun rows => ⟨rfl, ?_⟩, by decide⟩
  show (rows.filter (fun row => row.pk != 0)).map TableInfoRow.name = _
  refine congrArg (List.map TableInfoRow.name) (List.filter_congr fun row _ => ?_)
  by_cases h : row.pk = 0 <;> simp [h]

/-- Claim C7: `get_columns` builds one descriptor per catalog row in
catalog order, with nullable the negation of the notnull flag and the
default value carried over verbatim. -/
theorem get_columns_shape (rows : List TableInfoRow) :
    (get_columns rows).length = rows.length
    ∧ ∀ i : Nat,
        ((get_columns rows)[i]?).map (fun c => (c.name, c.nullable, c.default))
          = (rows[i]?).map (fun r => (r.name, !r.notnull, r.dflt_value)) := by
  refine ⟨by simp [get_columns], fun i => ?_⟩
  rw [get_columns, List.getElem?_map]
  cases rows[i]? <;> rfl

/-- Witness for C2 at a concrete single-column integer primary key. -/
theorem autoincrement_candidate_iff_witness :
    (get_columns [⟨"id", some "INTEGER", true, none, 1⟩])[0]? =
        some ⟨"id", SqlType.integer, false, none, true⟩
    ∧ ∃ row, ([(⟨"id", some "INTEGER", true, none, 1⟩ : TableInfoRow)])[0]? = some row
        ∧ ((⟨"id", SqlType.integer, false, none, true⟩ : ColumnDescriptor).autoincrement = true
            ↔ row.pk = 1) :=
  ⟨by decide, autoincrement_candidate_iff [⟨"id", some "INTEGER", true, none, 1⟩] 0
    ⟨"id", SqlType.integer, false, none, true⟩ (by decide)⟩

/-- Claim C4: each index descriptor takes its columns from the first
parenthesized group of the definition text (split on commas, pieces
trimmed of whitespace and quotes), an absent definition text gives an
empty column list and a false unique flag, uniqueness is a
case-insensitive substring test for UNIQUE, the primary-key flag is always
false, and the worked example parses as stated. -/
theorem get_indexes_spec :
    (∀ name, get_indexes [⟨name, none⟩] = [⟨name, [], false, false⟩])
    ∧ (∀ (rows : List IndexRow) (i : Nat),
        ((get_indexes rows)[i]?).map (fun d => (d.column_names, d.unique, d.primary_key))
          = (rows[i]?).map (fun r =>
              (parse_index_columns (r.sql.getD ""),
               containsSub (upperStr (r.sql.getD "")) "UNIQUE", false)))
    ∧ get_indexes [⟨"idx", some "CREATE UNIQUE INDEX idx ON t(a, b)"⟩]
        = [⟨"idx", ["a", "b"], true, false⟩] := by
  refine ⟨fun name => rfl, fun rows i => ?_, by decide⟩
  rw [get_indexes, List.getElem?_map]
  cases rows[i]? <;> rfl

/-- The accumulation loop of `get_unique_constraints` is filter-then-map. -/
theorem uniqueLoop_eq_filter_map (l : List IndexDescriptor) :
    uniqueLoop l = (l.filter IndexDescriptor.unique).map
      (fun idx => { name := idx.name, column_names := idx.column_names }) := by
  induction l with
  | nil => rfl
  | cons idx rest ih =>
    by_cases h : idx.unique <;> simp [uniqueLoop, List.filter_cons, h, ih]

/-- Claim C5: `get_unique_constraints` is exactly the unique-flagged subset
of the `get_indexes` output, in the same order, each element projected to
the index descriptor's name and column list. -/
theorem unique_constraints_spec (rows : List IndexRow) :
    get_unique_constraints rows
      = ((get_indexes rows).filter (fun idx => idx.unique)).map
          (fun idx => { name := idx.name, column_names := idx.column_names }) :=
  uniqueLoop_eq_filter_map (get_indexes rows)

/-- Claim C6: the table-name and view-name listings keep exactly the
catalog names that do not start with the internal `_cf` marker, in catalog
order (the output is a sublist of the input, so never re-sorted). -/
theorem table_view_names_spec :
    (∀ names : List String,
        List.Sublist (get_table_names names) names
        ∧ List.Sublist (get_view_names names) names)
    ∧ (∀ (names : List String) (n : String),
        n ∈ get_table_names names ↔ n ∈ names ∧ n.startsWith "_cf" = false)
    ∧ (∀ (names : List String) (n : String),
        n ∈ get_view_names names ↔ n ∈ names ∧ n.startsWith "_cf" = false) := by
  refine ⟨fun names => ⟨List.filter_sublist names, List.filter_sublist names⟩,
    fun names n => ?_, fun names n => ?_⟩ <;>
      simp [get_table_names, get_view_names, List.mem_filter]

/-- Claim C8: the existence probe of `has_table` has constant SQL text
with the table name carried only as a bound parameter, and the result is
true exactly when the probe returns at least one row. -/
theorem has_table_spec :
    (∀ n1 n2 : String, (has_table_stmt n1).sql = (has_table_stmt n2).sql)
    ∧ (∀ name : String, (has_table_stmt name).params = [("table_name", name)])
    ∧ (∀ rows : List Int, has_table rows = true ↔ rows ≠ []) := by
  refine ⟨fun n1 n2 => rfl, fun name => rfl, fun rows => ?_⟩
  cases rows <;> simp [has_table, scalar]

/-- An error message of the shape the wrappers build contains both the
table name and the cause text. -/
theorem msg_contains (a c tbl e : String) :
    containsSub (((a ++ tbl) ++ c) ++ e) tbl = true
    ∧ containsSub (((a ++ tbl) ++ c) ++ e) e = true := by
  constructor
  · rw [String.append_assoc (a ++ tbl) c e]
    exact containsSub_mid a tbl (c ++ e)
  · exact containsSub_suffix ((a ++ tbl) ++ c) e

/-- Claim C9: every table-scoped reflection operation turns a failing
underlying execute call into an error whose message carries the table
name and the original cause, returning no partial descriptors, and on a
successful call returns the fully populated result. -/
theorem reflection_failure_policy (tbl e : String) :
    (∃ m, get_columns_r tbl (Except.error e) = Except.error m
        ∧ containsSub m tbl = true ∧ containsSub m e = true)
    ∧ (∃ m, get_primary_keys_r tbl (Except.error e) = Except.error m
        ∧ containsSub m tbl = true ∧ containsSub m e = true)
    ∧ (∃ m, get_pk_constraint_r tbl (Except.error e) = Except.error m
        ∧ containsSub m tbl = true ∧ containsSub m e = true)
    ∧ (∃ m, get_foreign_keys_r tbl (Except.error e) = Except.error m
        ∧ containsSub m tbl = true ∧ containsSub m e = true)
    ∧ (∃ m, get_indexes_r tbl (Except.error e) = Except.error m
        ∧ containsSub m tbl = true ∧ containsSub m e = true)
    ∧ (∃ m, has_table_r tbl (Except.error e) = Except.error m
        ∧ containsSub m tbl = true ∧ containsSub m e = true)
    ∧ (∀ rows, get_columns_r tbl (Except.ok rows) = Except.ok (get_columns rows))
    ∧ (∀ rows, get_primary_keys_r tbl (Except.ok rows) = Except.ok (get_primary_keys rows))
    ∧ (∀ rows, get_pk_constraint_r tbl (Except.ok rows) = Except.ok (get_pk_constraint rows))
    ∧ (∀ rows, get_foreign_keys_r tbl (Except.ok rows) = Except.ok (get_foreign_keys rows))
    ∧ (∀ rows, get_indexes_r tbl (Except.ok rows) = Except.ok (get_indexes rows))
    ∧ (∀ rows, has_table_r tbl (Except.ok rows) = Except.ok (has_table rows)) := by
  refine ⟨⟨_, rfl, (msg_contains _ _ tbl e).1, (msg_contains _ _ tbl e).2⟩,
    ⟨_, rfl, (msg_contains _ _ tbl e).1, (msg_contains _ _ tbl e).2⟩,
    ⟨_, rfl, (msg_contains _ _ tbl e).1, (msg_contains _ _ tbl e).2⟩,
    ⟨_, rfl, (msg_contains _ _ tbl e).1, (msg_contains _ _ tbl e).2⟩,
    ⟨_, rfl, (msg_contains _ _ tbl e).1, (msg_contains _ _ tbl e).2⟩,
    ⟨_, rfl, (msg_contains _ _ tbl e).1, (msg_contains _ _ tbl e).2⟩,
    fun rows => rfl, fun rows => rfl, fun rows => rfl,
    fun rows => rfl, fun rows => rfl, fun rows => rfl⟩

/-- Keeping only the rows with ordinal 1 never keeps more rows than
keeping all nonzero ordinals. -/
theorem length_filter_pk_le (rows : List TableInfoRow) :
    (rows.filter (fun r => r.pk == 1)).length
      ≤ (rows.filter (fun r => r.pk != 0)).length := by
  induction rows with
  | nil => simp
  | cons r rs ih =>
    by_cases h1 : r.pk = 1
    · simpa [List.filter_cons, h1] using Nat.succ_le_succ ih
    · by_cases h0 : r.pk = 0
      · simpa [List.filter_cons, h1, h0] using ih
      · simp only [List.filter_cons, h1, h0]
        simp only [beq_iff_eq, h1, if_false, bne_iff_ne, ne_eq, h0,
          not_false_eq_true, if_true, List.length_cons]
        exact Nat.le_trans ih (Nat.le_succ _)

/-- The name lists of the two primary-key filters coincide exactly when no
row has an ordinal above 1. -/
theorem pk_filter_names_eq_iff (rows : List TableInfoRow) :
    ((rows.filter (fun r => r.pk == 1)).map TableInfoRow.name
        = (rows.filter (fun r => r.pk != 0)).map TableInfoRow.name)
      ↔ ∀ r ∈ rows, r.pk ≤ 1 := by
  induction rows with
  | nil => simp
  | cons r rs ih =>
    by_cases h1 : r.pk = 1
    · simp [List.filter_cons, h1, ih]
    · by_cases h0 : r.pk = 0
      · simp [List.filter_cons, h1, h0, ih]
      · constructor
        · intro heq
          exfalso
          have hlen := congrArg List.length heq
          simp [List.filter_cons, h1, h0] at hlen
          have hle := length_filter_pk_le rs
          omega
        · intro hall
          have := hall r (by simp)
          omega

/-- Claim C10: `get_primary_keys` keeps only ordinal-1 rows while
`get_pk_constraint` keeps all nonzero ordinals, so the two agree exactly
when no row has an ordinal above 1; on a composite key with ordinals 1
and 2 the former returns only the first key column while the latter
returns both. -/
theorem primary_keys_vs_pk_constraint :
    (∀ rows : List TableInfoRow,
        get_primary_keys rows = (get_pk_constraint rows).constrained_columns
          ↔ ∀ r ∈ rows, r.pk ≤ 1)
    ∧ get_primary_keys
        [⟨"a", some "INTEGER", true, none, 1⟩, ⟨"b", some "INTEGER", true, none, 2⟩]
        = ["a"]
    ∧ (get_pk_constraint
        [⟨"a", some "INTEGER", true, none, 1⟩,
         ⟨"b", some "INTEGER", true, none, 2⟩]).constrained_columns
        = ["a", "b"] :=
  ⟨fun rows => pk_filter_names_eq_iff rows, by decide, by decide⟩

end D1

